import Mathlib

/-!
Verification of the gunpowder pipeline stages `Crop`, `NormalizeTo` and
`RejectConstant` (sources: `gunpowder/nodes/crop.py`,
`gunpowder/nodes/normalize_to.py`, `gunpowder/nodes/reject_constant.py`).

The geometry helpers (`Coordinate`, `Roi.grow`, `Roi.contains`) are not part of
the analyzed sources; they are modelled from the design document (its data
model section).  Coordinates are modelled as vectors of rationals so that the
exact fractional-margin arithmetic is representable; integer inputs embed.
Numeric values computed by the floating-point runtime are likewise modelled as
exact rationals (reals where a square root occurs).
-/

deriving instance DecidableEq for Except

namespace Gunpowder

/-- Modelled from the spec: a region (ROI) is an offset vector plus a shape
vector of the same dimensionality. -/
structure Roi where
  offset : List ℚ
  shape : List ℚ
deriving Repr, DecidableEq

/-- Modelled from the spec: `contains(other)` holds iff on every axis `other`
lies within `[offset, offset + shape)`, i.e. the begin of `other` is at or
after our begin and its end is at or before our end. -/
def Roi.containsRoi (u r : Roi) : Bool :=
  (List.zip u.offset r.offset).all (fun p => decide (p.1 ≤ p.2)) &&
  (List.zip (List.zipWith (fun o s => o + s) r.offset r.shape)
            (List.zipWith (fun o s => o + s) u.offset u.shape)).all
    (fun p => decide (p.1 ≤ p.2))

/-- Modelled from the spec: `grow(negative, positive)` shifts the offset
outward by `negative` per axis and adjusts the shape so that the opposite
face shifts by `positive`; negative arguments shrink. -/
def Roi.grow (u : Roi) (neg pos : List ℚ) : Roi :=
  { offset := List.zipWith (fun o n => o - n) u.offset neg
    shape := List.zipWith (fun s n => s + n)
      (List.zipWith (fun s n => s + n) u.shape neg) pos }

/-- The configuration state of a `Crop` node after `Crop.__init__`
(`crop.py`, lines 39-73): the five constructor arguments as stored on the
instance, after the one-sided fraction default has been applied. -/
structure Crop where
  roi : Option Roi
  fraction_negative : Option (List ℚ)
  fraction_positive : Option (List ℚ)
  abs_negative : Option (List ℚ)
  abs_positive : Option (List ℚ)
deriving Repr, DecidableEq

/-- `Crop.__init__` (`crop.py`, lines 39-73): validates the mutually
exclusive configuration classes and defaults the missing fraction face to
zero margins.  Raising `RuntimeError` is modelled as `Except.error`. -/
def cropInit (roi : Option Roi) (fraction_negative fraction_positive
    abs_negative abs_positive : Option (List ℚ)) : Except String Crop :=
  if roi.isSome && (fraction_positive.isSome || fraction_negative.isSome ||
      abs_positive.isSome || abs_negative.isSome) then
    Except.error "roi and fraction arguments can not be given together"
  else if (fraction_positive.isSome && abs_positive.isSome) ||
      (fraction_negative.isSome && abs_negative.isSome) then
    Except.error "fraction and abs arguments can not be given together"
  else if roi.isNone && fraction_positive.isNone && fraction_negative.isNone &&
      abs_positive.isNone && abs_negative.isNone then
    Except.error "One of roi, fraction, or abs has to be given"
  else
    match fraction_negative, fraction_positive with
    | some fn, none =>
        Except.ok ⟨roi, some fn, some (List.replicate fn.length 0),
          abs_negative, abs_positive⟩
    | none, some fp =>
        Except.ok ⟨roi, some (List.replicate fp.length 0), some fp,
          abs_negative, abs_positive⟩
    | fn, fp => Except.ok ⟨roi, fn, fp, abs_negative, abs_positive⟩

/-- `crop.py`, line 88: the Python truthiness test `if self.fraction_negative:`
is false for `None` and for an empty tuple. -/
def fracGate (c : Crop) : Bool :=
  match c.fraction_negative with
  | some fn => !fn.isEmpty
  | none => false

/-- `crop.py`, lines 88-94: when the fraction gate is open, the per-axis sums
of the two fraction faces are formed and the node fails if any of them reaches
1 (the source tests `max(total_fraction) >= 1`). -/
def fracSumCheck (c : Crop) : Except String Unit :=
  if fracGate c then
    match c.fraction_negative, c.fraction_positive with
    | some fn, some fp =>
        if (List.zipWith (fun x y => x + y) fn fp).any
            (fun t => decide (1 ≤ t)) then
          Except.error "Sum of crop fractions exeeds 1"
        else Except.ok ()
    | _, _ => Except.error "TypeError: zip with None"
  else Except.ok ()

/-- `crop.py`, lines 96-104: one face of the crop margins, taken from the
absolute amounts when given and otherwise from the upstream shape multiplied
by the fractions (Modelled from the spec: the multiplication of a shape by a
fraction vector is exact, per the design document; multiplying by the missing
`None` fraction is the TypeError the runtime would raise). -/
def resolveFace (absFace fracFace : Option (List ℚ)) (shape : List ℚ) :
    Except String (List ℚ) :=
  match absFace with
  | some a => Except.ok a
  | none =>
      match fracFace with
      | some f => Except.ok (List.zipWith (fun s x => s * x) shape f)
      | none => Except.error "TypeError: unsupported operand"

/-- `crop.py`, lines 106-107: the extent check fails on any axis on which the
sum of the two resolved margins reaches the upstream extent (Modelled from the
spec for the coordinate comparison: the design document states the check is
per axis). -/
def marginsTooLarge (crop_positive crop_negative shape : List ℚ) : Bool :=
  (List.zip (List.zipWith (fun x y => x + y) crop_positive crop_negative)
      shape).any (fun p => decide (p.2 ≤ p.1))

/-- `Crop.setup` (`crop.py`, lines 75-114): either the explicit target region
is validated against the upstream region, or the margins are resolved, checked
against the upstream extent, and the published region is obtained by the
`grow(-crop_positive, -crop_negative)` call of line 109-111.  The published
region replaces the upstream one in the registry; we return it. -/
def cropSetup (c : Crop) (u : Roi) : Except String Roi :=
  match c.roi with
  | some r =>
      if u.containsRoi r then Except.ok r
      else Except.error "Crop ROI is not contained in upstream ROI."
  | none =>
      match fracSumCheck c with
      | Except.error e => Except.error e
      | Except.ok _ =>
          match resolveFace c.abs_positive c.fraction_positive u.shape with
          | Except.error e => Except.error e
          | Except.ok cp =>
              match resolveFace c.abs_negative c.fraction_negative u.shape with
              | Except.error e => Except.error e
              | Except.ok cn =>
                  if marginsTooLarge cp cn u.shape then
                    Except.error "Combination of requested positive crop and requested negative crop are larger than the provided ROI."
                  else
                    Except.ok (u.grow (cp.map (fun x => -x))
                      (cn.map (fun x => -x)))

/-- `Except.error` recogniser used to state when a stage raises. -/
def isErr {α : Type} (x : Except String α) : Bool :=
  match x with
  | Except.error _ => true
  | Except.ok _ => false

/-- C1: `Crop.setup` in absolute-margin mode, evaluated at the concrete
upstream region with offset (0) and shape (10) and margins
abs_negative = (2), abs_positive = (3).  The code publishes the region with
offset (3) = offset + abs_positive and shape (5), not offset +
abs_negative = (2) as the claim and the constructor docstring state: the
`grow(-crop_positive, -crop_negative)` call of crop.py lines 109-111 passes
the positive margin to the negative face and vice versa. -/
theorem crop_abs_margins_swapped :
    cropSetup ⟨none, none, none, some [2], some [3]⟩ ⟨[0], [10]⟩
        = Except.ok ⟨[3], [5]⟩
    ∧ cropSetup ⟨none, none, none, some [2], some [3]⟩ ⟨[0], [10]⟩
        ≠ Except.ok ⟨[2], [5]⟩ := by
  constructor
  · norm_num [cropSetup, fracSumCheck, fracGate, resolveFace, marginsTooLarge,
      Roi.grow]
  · norm_num [cropSetup, fracSumCheck, fracGate, resolveFace, marginsTooLarge,
      Roi.grow]

/-- C4 counterexample: the constructor accepts `fraction_negative` together
with `abs_positive` (mixing a fractional amount and an absolute amount across
the two configuration classes), defaulting the positive fraction face to
zero; the claim says this combination raises a configuration error. -/
theorem cropInit_mixed_faces_accepted :
    cropInit none (some [1/4]) none none (some [2])
      = Except.ok ⟨none, some [1/4], some [0], none, some [2]⟩ := by
  norm_num [cropInit]

/-- C4 (amended): `Crop.__init__` raises exactly when `roi` is combined with
any margin argument, when the same face carries both a fractional and an
absolute amount, or when no argument at all is given; mixing a fraction on
one face with an absolute amount on the other face is accepted. -/
theorem cropInit_error_iff (roi : Option Roi)
    (fn fp an ap : Option (List ℚ)) :
    isErr (cropInit roi fn fp an ap) = true ↔
      (roi.isSome = true ∧ (fn.isSome = true ∨ fp.isSome = true ∨
        an.isSome = true ∨ ap.isSome = true))
      ∨ (fp.isSome = true ∧ ap.isSome = true)
      ∨ (fn.isSome = true ∧ an.isSome = true)
      ∨ (roi = none ∧ fn = none ∧ fp = none ∧ an = none ∧ ap = none) := by
  cases roi <;> cases fn <;> cases fp <;> cases an <;> cases ap <;>
    simp [cropInit, isErr]

theorem marginsTooLarge_iff (cp cn shape : List ℚ) (d : ℕ)
    (h1 : cp.length = d) (h2 : cn.length = d) (h3 : shape.length = d) :
    marginsTooLarge cp cn shape = true ↔
      ∃ i, i < d ∧ shape.getD i 0 ≤ cn.getD i 0 + cp.getD i 0 := by
  induction cp generalizing cn shape d with
  | nil =>
    subst h1
    simp [marginsTooLarge]
  | cons x cp ih =>
    cases cn with
    | nil => simp at h1 h2; omega
    | cons y cn =>
      cases shape with
      | nil => simp at h1 h3; omega
      | cons s sh =>
        obtain ⟨k, rfl⟩ : ∃ k, d = k + 1 := ⟨cp.length, by simp at h1; omega⟩
        simp only [List.length_cons, Nat.add_right_cancel_iff] at h1 h2 h3
        simp only [marginsTooLarge, List.zipWith_cons_cons, List.zip_cons_cons,
          List.any_cons, Bool.or_eq_true, decide_eq_true_eq]
        rw [show ((List.zip (List.zipWith (fun a b => a + b) cp cn) sh).any
            fun p => decide (p.2 ≤ p.1)) = marginsTooLarge cp cn sh from rfl]
        rw [ih cn sh k h1 h2 h3]
        constructor
        · rintro (h | ⟨i, hi, hx⟩)
          · exact ⟨0, by omega, by simpa [add_comm] using h⟩
          · exact ⟨i + 1, by omega, by simpa using hx⟩
        · rintro ⟨i, hi, hx⟩
          cases i with
          | zero => exact Or.inl (by simpa [add_comm] using hx)
          | succ n => exact Or.inr ⟨n, by omega, by simpa using hx⟩

theorem fracSum_any_iff (fn fp : List ℚ) (d : ℕ)
    (h1 : fn.length = d) (h2 : fp.length = d) :
    ((List.zipWith (fun x y => x + y) fn fp).any
        (fun t => decide (1 ≤ t)) = true)
      ↔ ∃ i, i < d ∧ 1 ≤ fn.getD i 0 + fp.getD i 0 := by
  induction fn generalizing fp d with
  | nil =>
    subst h1
    simp
  | cons x fn ih =>
    cases fp with
    | nil => simp at h1 h2; omega
    | cons y fp =>
      obtain ⟨k, rfl⟩ : ∃ k, d = k + 1 := ⟨fn.length, by simp at h1; omega⟩
      simp only [List.length_cons, Nat.add_right_cancel_iff] at h1 h2
      simp only [List.zipWith_cons_cons, List.any_cons, Bool.or_eq_true,
        decide_eq_true_eq]
      rw [ih fp k h1 h2]
      constructor
      · rintro (h | ⟨i, hi, hx⟩)
        · exact ⟨0, by omega, by simpa using h⟩
        · exact ⟨i + 1, by omega, by simpa using hx⟩
      · rintro ⟨i, hi, hx⟩
        cases i with
        | zero => exact Or.inl (by simpa using hx)
        | succ n => exact Or.inr ⟨n, by omega, by simpa using hx⟩

theorem getD_zipWith_mul (xs ys : List ℚ) (i : ℕ)
    (hx : i < xs.length) (hy : i < ys.length) :
    (List.zipWith (fun s x => s * x) xs ys).getD i 0
      = xs.getD i 0 * ys.getD i 0 := by
  induction xs generalizing ys i with
  | nil => simp at hx
  | cons x xs ih =>
    cases ys with
    | nil => simp at hy
    | cons y ys =>
      cases i with
      | zero => simp
      | succ n =>
        simp only [List.zipWith_cons_cons, List.getD_cons_succ]
        exact ih ys n (by simpa using hx) (by simpa using hy)

theorem getD_mem (l : List ℚ) (i : ℕ) (h : i < l.length) :
    l.getD i 0 ∈ l := by
  induction l generalizing i with
  | nil => simp at h
  | cons x xs ih =>
    cases i with
    | zero => simp
    | succ n =>
      simp only [List.getD_cons_succ]
      exact List.mem_cons_of_mem x (ih n (by simpa using h))

/-- C3: in margin mode (pure absolute or pure fractional configuration, with
matching dimensionality and the non-negative upstream shape guaranteed by the
region invariant), `Crop.setup` raises a configuration error exactly when some
axis has resolved negative plus positive margin reaching the upstream extent
on that axis; the check is per axis (the fraction-sum error of lines 88-94 can
only fire when such an axis exists). -/
theorem cropSetup_margin_error_iff (c : Crop) (u : Roi) (d : ℕ)
    (cn cp : List ℚ)
    (hroi : c.roi = none)
    (hd : u.shape.length = d)
    (hpos : ∀ s ∈ u.shape, 0 ≤ s)
    (hmode :
      (c.fraction_negative = none ∧ c.fraction_positive = none ∧
        c.abs_negative = some cn ∧ c.abs_positive = some cp ∧
        cn.length = d ∧ cp.length = d)
      ∨ (c.abs_negative = none ∧ c.abs_positive = none ∧
        ∃ fn fp, c.fraction_negative = some fn ∧ c.fraction_positive = some fp ∧
          fn.length = d ∧ fp.length = d ∧
          cn = List.zipWith (fun s x => s * x) u.shape fn ∧
          cp = List.zipWith (fun s x => s * x) u.shape fp)) :
    isErr (cropSetup c u) = true ↔
      ∃ i, i < d ∧ u.shape.getD i 0 ≤ cn.getD i 0 + cp.getD i 0 := by
  rcases hmode with ⟨e1, e2, e3, e4, hcl, hpl⟩ |
    ⟨e1, e2, fn, fp, e3, e4, hfl, hpl, hcneq, hcpeq⟩
  · rw [← marginsTooLarge_iff cp cn u.shape d hpl hcl hd]
    simp only [cropSetup, hroi, e1, e2, e3, e4, fracSumCheck, fracGate,
      resolveFace]
    cases hmb : marginsTooLarge cp cn u.shape <;> simp [isErr, hmb]
  · have hcnl : cn.length = d := by
      rw [hcneq]; simp [hd, hfl]
    have hcpl : cp.length = d := by
      rw [hcpeq]; simp [hd, hpl]
    cases fn with
    | nil =>
      have hd0 : d = 0 := by simpa using hfl.symm
      subst hd0
      have hcn0 : cn = [] := List.eq_nil_of_length_eq_zero hcnl
      have hcp0 : cp = [] := List.eq_nil_of_length_eq_zero hcpl
      subst hcn0 hcp0
      simp only [cropSetup, hroi, e1, e2, e3, e4, fracSumCheck, fracGate,
        resolveFace, List.isEmpty_nil, Bool.not_true, Bool.false_eq_true,
        if_false]
      rw [← hcneq, ← hcpeq]
      simp [marginsTooLarge, isErr]
    | cons a fn0 =>
      by_cases hfs : (List.zipWith (fun x y => x + y) (a :: fn0) fp).any
          (fun t => decide (1 ≤ t)) = true
      · constructor
        · intro _
          obtain ⟨j, hj, hjs⟩ := (fracSum_any_iff (a :: fn0) fp d hfl hpl).mp hfs
          refine ⟨j, hj, ?_⟩
          have hjs' : j < u.shape.length := by omega
          have hs0 : 0 ≤ u.shape.getD j 0 :=
            hpos _ (getD_mem u.shape j hjs')
          have hmul := mul_le_mul_of_nonneg_left hjs hs0
          rw [hcneq, hcpeq, getD_zipWith_mul u.shape (a :: fn0) j hjs' (by omega),
            getD_zipWith_mul u.shape fp j hjs' (by omega)]
          nlinarith [hmul]
        · intro _
          simp only [cropSetup, hroi, e1, e2, e3, e4, fracSumCheck, fracGate,
            resolveFace]
          simp [hfs, isErr]
      · simp only [cropSetup, hroi, e1, e2, e3, e4, fracSumCheck, fracGate,
          resolveFace]
        rw [← marginsTooLarge_iff cp cn u.shape d hcpl hcnl hd]
        simp only [List.isEmpty_cons, Bool.not_false, if_true, hfs]
        rw [← hcneq, ← hcpeq]
        simp only [Bool.false_eq_true, if_false]
        cases hmb : marginsTooLarge cp cn u.shape <;> simp [isErr, hmb]

/-- C3 witness: the characterization applied to the concrete pure-absolute
configuration with margins (5) and (6) over an upstream shape of (10): the
margin sum 11 reaches the extent 10, so setup errors and the offending axis
exists. -/
theorem cropSetup_margin_error_iff_witness :
    isErr (cropSetup ⟨none, none, none, some [5], some [6]⟩ ⟨[0], [10]⟩)
        = true ↔
      ∃ i, i < 1 ∧ ([(10 : ℚ)]).getD i 0
        ≤ ([(5 : ℚ)]).getD i 0 + ([(6 : ℚ)]).getD i 0 :=
  cropSetup_margin_error_iff ⟨none, none, none, some [5], some [6]⟩
    ⟨[0], [10]⟩ 1 [5] [6] rfl (by norm_num)
    (by intro s hs; rw [List.mem_singleton] at hs; rw [hs]; norm_num)
    (Or.inl ⟨rfl, rfl, rfl, rfl, by norm_num, by norm_num⟩)

/-- The element types that appear in `normalize_to.py`: the three types with
automatic normalization support, a further floating type for outputs, and a
representative unsupported type. -/
inductive DType where
  | uint8
  | uint16
  | float32
  | float64
  | int32
deriving Repr, DecidableEq

/-- Value conversion of `ndarray.astype`: the identity on floating targets
(values in range are preserved), truncation toward zero with wrap-around on
the unsigned targets. -/
def castTo (d : DType) (x : ℚ) : ℚ :=
  match d with
  | DType.float32 => x
  | DType.float64 => x
  | DType.uint8 => ((x.num / (x.den : ℤ)) % 256 : ℤ)
  | DType.uint16 => ((x.num / (x.den : ℤ)) % 65536 : ℤ)
  | DType.int32 => (x.num / (x.den : ℤ) : ℤ)

/-- An array entry of a batch: its data (one flat list of values), the element
type the data currently has, and the element type recorded on its spec. -/
structure NArray where
  data : List ℚ
  dtype : DType
  specDtype : DType
deriving Repr, DecidableEq

/-- The configuration state of a `NormalizeTo` node after
`NormalizeTo.__init__` (`normalize_to.py`, lines 35-48).  `hasFactor` records
whether the attribute `self.factor` was assigned at all: the source assigns it
(with value `None`) only in the branch where no input interval is given. -/
structure NormalizeTo where
  out_interval : ℚ × ℚ
  out_factor : ℚ
  out_offset : ℚ
  in_interval : Option (ℚ × ℚ)
  in_factor : Option ℚ
  in_offset : Option ℚ
  hasFactor : Bool
  dtype : DType
deriving Repr, DecidableEq

/-- `NormalizeTo.__init__` (`normalize_to.py`, lines 35-48): derives the
output width factor and center offset, the input ones when an input interval
is given, and otherwise sets `self.factor = None`. -/
def mkNormalizeTo (out_interval : ℚ × ℚ) (in_interval : Option (ℚ × ℚ))
    (dtype : DType) : NormalizeTo :=
  { out_interval
    out_factor := 1 / |out_interval.2 - out_interval.1|
    out_offset := (out_interval.1 + out_interval.2) / 2
    in_interval
    in_factor := in_interval.map (fun p => 1 / |p.2 - p.1|)
    in_offset := in_interval.map (fun p => (p.1 + p.2) / 2)
    hasFactor := in_interval.isNone
    dtype }

/-- `normalize_to.py`, lines 80-88: in the `float32` branch the data is first
remapped via `(x + 1) / 2` when the observed minimum is negative but at least
-1 and the maximum is at most 1, and afterwards the values must be confirmed
within `[0, 1]` or the assertion fails.  Returns the (possibly remapped) data;
the factor for this branch is 1.  The minimum of an empty array is the
ValueError the numeric runtime would raise. -/
def autoFloat32 (data : List ℚ) : Except String (List ℚ) :=
  match data.min?, data.max? with
  | some m, some M =>
      let d := if m < 0 ∧ -1 ≤ m ∧ M ≤ 1
        then data.map (fun x => (x + 1) / 2) else data
      match d.min?, d.max? with
      | some m2, some M2 =>
          if 0 ≤ m2 ∧ M2 ≤ 1 then Except.ok d
          else Except.error
            "Values are float but not in [0,1], please provide a factor"
      | _, _ => Except.error "ValueError: zero-size array reduction"
  | _, _ => Except.error "ValueError: zero-size array reduction"

/-- `NormalizeTo.process` (`normalize_to.py`, lines 62-95) on the batch entry
for the governed key: the spec records the configured output type, the factor
attribute is read (an `AttributeError` when the constructor never assigned
it), the factor is inferred from the observed element type, and the data is
cast to the output type and multiplied by the factor. -/
def NormalizeTo.process (n : NormalizeTo) (a : NArray) : Except String NArray :=
  if n.hasFactor = false then
    Except.error "AttributeError: NormalizeTo object has no attribute factor"
  else
    let factorData : Except String (ℚ × List ℚ) :=
      match a.dtype with
      | DType.uint8 => Except.ok (1 / 255, a.data)
      | DType.uint16 => Except.ok (1 / (256 * 256 - 1), a.data)
      | DType.float32 => (autoFloat32 a.data).map (fun d => (1, d))
      | _ => Except.error
          "Automatic normalization not implemented, please provide a factor"
    factorData.map (fun fd =>
      { data := fd.2.map (fun x => castTo n.dtype x * fd.1)
        dtype := n.dtype
        specDtype := n.dtype })

theorem min?_map (f : ℚ → ℚ)
    (hf : ∀ x y : ℚ, f (min x y) = min (f x) (f y)) (l : List ℚ) :
    (l.map f).min? = l.min?.map f := by
  induction l with
  | nil => rfl
  | cons x xs ih =>
    simp only [List.map_cons, List.min?_cons, ih, Option.map_some]
    cases xs.min? with
    | none => rfl
    | some v => simp [hf]

theorem max?_map (f : ℚ → ℚ)
    (hf : ∀ x y : ℚ, f (max x y) = max (f x) (f y)) (l : List ℚ) :
    (l.map f).max? = l.max?.map f := by
  induction l with
  | nil => rfl
  | cons x xs ih =>
    simp only [List.map_cons, List.max?_cons, ih, Option.map_some]
    cases xs.max? with
    | none => rfl
    | some v => simp [hf]

theorem remap_min_commute (x y : ℚ) :
    (min x y + 1) / 2 = min ((x + 1) / 2) ((y + 1) / 2) := by
  rcases le_total x y with h | h
  · rw [min_eq_left h, min_eq_left (by linarith)]
  · rw [min_eq_right h, min_eq_right (by linarith)]

theorem remap_max_commute (x y : ℚ) :
    (max x y + 1) / 2 = max ((x + 1) / 2) ((y + 1) / 2) := by
  rcases le_total x y with h | h
  · rw [max_eq_right h, max_eq_right (by linarith)]
  · rw [max_eq_left h, max_eq_left (by linarith)]

/-- C2: with an explicit input interval configured, `process` does not apply
any affine transform: `self.factor` is only ever assigned in the branch where
no input interval is given, so the very first read `factor = self.factor`
raises an `AttributeError`.  Concrete evaluation at `in_interval = (0, 2)` on
a one-element float array. -/
theorem normalizeTo_in_interval_attribute_error :
    (mkNormalizeTo (0, 1) (some (0, 2)) DType.float32).process
        ⟨[1], DType.float32, DType.float32⟩
      = Except.error
          "AttributeError: NormalizeTo object has no attribute factor" := by
  rfl

/-- C5 counterexample: for the default configuration (no input interval) and
the float32 data (-1/2, 1/2), the output is (1/4, 3/4) — the tanh remap of
lines 81-84 fired — and no single factor `k` turns the input into that
output, refuting that the output always equals the cast input times a factor
determined by the element type alone. -/
theorem normalizeTo_float32_remap_cex :
    (mkNormalizeTo (0, 1) none DType.float32).process
        ⟨[-1/2, 1/2], DType.float32, DType.float32⟩
      = Except.ok ⟨[1/4, 3/4], DType.float32, DType.float32⟩
    ∧ ¬ ∃ k : ℚ, ([1/4, 3/4] : List ℚ) = [k * (-1/2), k * (1/2)] := by
  constructor
  · have h1 : List.min? [(-1/2 : ℚ), 1/2] = some (-1/2) := by
      norm_num [List.min?, min_def]
    have h2 : List.max? [(-1/2 : ℚ), 1/2] = some (1/2) := by
      norm_num [List.max?, max_def]
    have h3 : autoFloat32 [(-1/2 : ℚ), 1/2] = Except.ok [1/4, 3/4] := by
      simp only [autoFloat32, h1, h2]
      rw [if_pos (by norm_num)]
      norm_num [List.min?, List.max?, min_def, max_def]
    simp only [NormalizeTo.process, mkNormalizeTo, Option.isNone_none,
      Bool.true_eq_false, if_false, h3, Except.map]
    norm_num [castTo]
  · rintro ⟨k, hk⟩
    simp only [List.cons.injEq, and_true] at hk
    obtain ⟨hk1, hk2⟩ := hk
    linarith

/-- C5 (amended): without an explicit input interval the configured output
interval has no effect on `process` (the precomputed out_factor and
out_offset are never read), and for the unsigned integer element types the
output is exactly the cast input times the element-type factor; float32 data
may additionally be remapped first (see the counterexample and C6). -/
theorem normalizeTo_auto_ignores_out_interval (o1 o2 : ℚ × ℚ) (dt : DType)
    (a : NArray) (h1 : o1.1 ≠ o1.2) (h2 : o2.1 ≠ o2.2) :
    (mkNormalizeTo o1 none dt).process a = (mkNormalizeTo o2 none dt).process a
    ∧ (a.dtype = DType.uint8 →
        (mkNormalizeTo o1 none dt).process a
          = Except.ok ⟨a.data.map (fun x => castTo dt x * (1 / 255)), dt, dt⟩)
    ∧ (a.dtype = DType.uint16 →
        (mkNormalizeTo o1 none dt).process a
          = Except.ok ⟨a.data.map
              (fun x => castTo dt x * (1 / (256 * 256 - 1))), dt, dt⟩) := by
  refine ⟨rfl, ?_, ?_⟩ <;> intro hdt <;>
    simp [NormalizeTo.process, mkNormalizeTo, hdt, Except.map]

/-- C5 witness: the amended statement at two distinct output intervals, the
uint8 element type and the one-element data (2). -/
theorem normalizeTo_auto_ignores_out_interval_witness :
    ((mkNormalizeTo (0, 1) none DType.float32).process
          ⟨[2], DType.uint8, DType.uint8⟩
        = (mkNormalizeTo (-1, 1) none DType.float32).process
          ⟨[2], DType.uint8, DType.uint8⟩)
    ∧ ((⟨[2], DType.uint8, DType.uint8⟩ : NArray).dtype = DType.uint8 →
        (mkNormalizeTo (0, 1) none DType.float32).process
            ⟨[2], DType.uint8, DType.uint8⟩
          = Except.ok ⟨([(2 : ℚ)]).map
              (fun x => castTo DType.float32 x * (1 / 255)),
              DType.float32, DType.float32⟩)
    ∧ ((⟨[2], DType.uint8, DType.uint8⟩ : NArray).dtype = DType.uint16 →
        (mkNormalizeTo (0, 1) none DType.float32).process
            ⟨[2], DType.uint8, DType.uint8⟩
          = Except.ok ⟨([(2 : ℚ)]).map
              (fun x => castTo DType.float32 x * (1 / (256 * 256 - 1))),
              DType.float32, DType.float32⟩) :=
  normalizeTo_auto_ignores_out_interval (0, 1) (-1, 1) DType.float32
    ⟨[2], DType.uint8, DType.uint8⟩ (by norm_num) (by norm_num)

/-- C6: for float32 data without an explicit input interval, if the observed
minimum lies in [-1, 0) and the observed maximum is at most 1 the data is
first remapped elementwise via (x + 1) / 2 (and the remapped values are then
within [0, 1], so the stage succeeds with factor 1); without the remap the
stage succeeds with factor 1 exactly when the values already lie within
[0, 1] and otherwise fails with the configuration error asking for an
explicit factor. -/
theorem normalizeTo_float32_auto_behavior (o : ℚ × ℚ) (dt : DType)
    (a : NArray) (ho : o.1 ≠ o.2) (hdt : a.dtype = DType.float32)
    (m M : ℚ) (hm : a.data.min? = some m) (hM : a.data.max? = some M) :
    ((m < 0 ∧ -1 ≤ m ∧ M ≤ 1) →
      (mkNormalizeTo o none dt).process a
        = Except.ok ⟨a.data.map (fun x => castTo dt ((x + 1) / 2) * 1),
            dt, dt⟩)
    ∧ ((0 ≤ m ∧ M ≤ 1) →
      (mkNormalizeTo o none dt).process a
        = Except.ok ⟨a.data.map (fun x => castTo dt x * 1), dt, dt⟩)
    ∧ (¬ (m < 0 ∧ -1 ≤ m ∧ M ≤ 1) → ¬ (0 ≤ m ∧ M ≤ 1) →
      (mkNormalizeTo o none dt).process a
        = Except.error
            "Values are float but not in [0,1], please provide a factor") := by
  obtain ⟨data, adt, sdt⟩ := a
  simp only at hm hM
  simp only at hdt
  subst hdt
  refine ⟨?_, ?_, ?_⟩
  · intro hc
    have hmin : (data.map (fun x => (x + 1) / 2)).min?
        = some ((m + 1) / 2) := by
      rw [min?_map _ remap_min_commute, hm]
      rfl
    have hmax : (data.map (fun x => (x + 1) / 2)).max?
        = some ((M + 1) / 2) := by
      rw [max?_map _ remap_max_commute, hM]
      rfl
    have hauto : autoFloat32 data
        = Except.ok (data.map (fun x => (x + 1) / 2)) := by
      simp only [autoFloat32, hm, hM]
      rw [if_pos hc]
      simp only [hmin, hmax]
      rw [if_pos (by obtain ⟨h1, h2, h3⟩ := hc; constructor <;> linarith)]
    simp only [NormalizeTo.process, mkNormalizeTo, Option.isNone_none,
      Bool.true_eq_false, if_false, hauto, Except.map, List.map_map]
    rfl
  · intro hc
    have hauto : autoFloat32 data = Except.ok data := by
      simp only [autoFloat32, hm, hM]
      rw [if_neg (by rintro ⟨h1, _, _⟩; linarith [hc.1])]
      simp only [hm, hM]
      rw [if_pos hc]
    simp only [NormalizeTo.process, mkNormalizeTo, Option.isNone_none,
      Bool.true_eq_false, if_false, hauto, Except.map]
  · intro hnr hnc
    have hauto : autoFloat32 data = Except.error
        "Values are float but not in [0,1], please provide a factor" := by
      simp only [autoFloat32, hm, hM]
      rw [if_neg hnr]
      simp only [hm, hM]
      rw [if_neg hnc]
    simp only [NormalizeTo.process, mkNormalizeTo, Option.isNone_none,
      Bool.true_eq_false, if_false, hauto, Except.map]

/-- C6 witness: the float32 behavior at the concrete data (-1/2, 1/2), whose
minimum -1/2 lies in [-1, 0) and maximum 1/2 is at most 1. -/
theorem normalizeTo_float32_auto_behavior_witness :
    ((((-1 : ℚ)/2) < 0 ∧ (-1 : ℚ) ≤ (-1)/2 ∧ (1 : ℚ)/2 ≤ 1) →
      (mkNormalizeTo (0, 1) none DType.float32).process
          ⟨[-1/2, 1/2], DType.float32, DType.float32⟩
        = Except.ok ⟨([(-1/2 : ℚ), 1/2]).map
            (fun x => castTo DType.float32 ((x + 1) / 2) * 1),
            DType.float32, DType.float32⟩)
    ∧ (((0 : ℚ) ≤ (-1)/2 ∧ (1 : ℚ)/2 ≤ 1) →
      (mkNormalizeTo (0, 1) none DType.float32).process
          ⟨[-1/2, 1/2], DType.float32, DType.float32⟩
        = Except.ok ⟨([(-1/2 : ℚ), 1/2]).map
            (fun x => castTo DType.float32 x * 1),
            DType.float32, DType.float32⟩)
    ∧ (¬ (((-1 : ℚ)/2) < 0 ∧ (-1 : ℚ) ≤ (-1)/2 ∧ (1 : ℚ)/2 ≤ 1) →
        ¬ ((0 : ℚ) ≤ (-1)/2 ∧ (1 : ℚ)/2 ≤ 1) →
      (mkNormalizeTo (0, 1) none DType.float32).process
          ⟨[-1/2, 1/2], DType.float32, DType.float32⟩
        = Except.error
            "Values are float but not in [0,1], please provide a factor") :=
  normalizeTo_float32_auto_behavior (0, 1) DType.float32
    ⟨[-1/2, 1/2], DType.float32, DType.float32⟩ (by norm_num) rfl
    ((-1)/2) (1/2) (by norm_num [List.min?, min_def])
    (by norm_num [List.max?, max_def])

/-- C10: an 8-bit unsigned array under the default configuration (no input
interval, output interval [0, 1], output type float32) is divided by 255,
lands in [0, 1], and the configured output element type is recorded on the
entry. -/
theorem normalizeTo_uint8_default_roundtrip (a : NArray)
    (hdt : a.dtype = DType.uint8)
    (hv : ∀ x ∈ a.data, 0 ≤ x ∧ x ≤ 255) :
    (mkNormalizeTo (0, 1) none DType.float32).process a
      = Except.ok ⟨a.data.map (fun x => x / 255),
          DType.float32, DType.float32⟩
    ∧ ∀ y ∈ a.data.map (fun x => x / 255), 0 ≤ y ∧ y ≤ 1 := by
  constructor
  · obtain ⟨data, adt, sdt⟩ := a
    simp only at hdt
    subst hdt
    simp only [NormalizeTo.process, mkNormalizeTo, Option.isNone_none,
      Bool.true_eq_false, if_false, Except.map]
    simp only [Except.ok.injEq, NArray.mk.injEq, and_true, true_and]
    refine List.map_congr_left ?_
    intro x _
    rw [castTo, mul_one_div]
  · intro y hy
    rw [List.mem_map] at hy
    obtain ⟨x, hx, rfl⟩ := hy
    obtain ⟨hx0, hx255⟩ := hv x hx
    constructor
    · positivity
    · rw [div_le_one (by norm_num)]
      linarith

/-- C10 witness: the default configuration on the uint8 data (0, 128, 255)
produces (0, 128/255, 1). -/
theorem normalizeTo_uint8_default_roundtrip_witness :
    ((mkNormalizeTo (0, 1) none DType.float32).process
        ⟨[0, 128, 255], DType.uint8, DType.uint8⟩
      = Except.ok ⟨([(0 : ℚ), 128, 255]).map (fun x => x / 255),
          DType.float32, DType.float32⟩)
    ∧ ∀ y ∈ ([(0 : ℚ), 128, 255]).map (fun x => x / 255), 0 ≤ y ∧ y ≤ 1 :=
  normalizeTo_uint8_default_roundtrip
    ⟨[0, 128, 255], DType.uint8, DType.uint8⟩ rfl
    (by intro x hx; fin_cases hx <;> norm_num)

/-- The configuration state of a `RejectConstant` node after `__init__`
(`reject_constant.py`, lines 34-48). -/
structure RejectConstant where
  min_coefvar : ℚ
  reject_probability : ℚ
  axis : ℕ
deriving Repr, DecidableEq

/-- `RejectConstant.__init__` (`reject_constant.py`, lines 34-48): the
minimal required coefficient of variation defaults to 1e-04; the reject
probability and the axis are stored as given. -/
def mkRejectConstant (min_coefvar : Option ℚ) (reject_probability : ℚ)
    (axis : ℕ) : RejectConstant :=
  { min_coefvar := min_coefvar.getD (1 / 10000)
    reject_probability
    axis }

/-- `np.mean` of one row of values. -/
def rmean (l : List ℚ) : ℚ := l.sum / l.length

/-- The population variance of one row (`np.std` with ddof 0 is its square
root). -/
def rvar (l : List ℚ) : ℚ := rmean (l.map (fun x => (x - rmean l) ^ 2))

/-- The rows of the governed data along the configured axis, for data already
squeezed to two dimensions: reducing along axis 1 (the default) forms one
statistic per row of the data, reducing along axis 0 one per column. -/
def rowsAlong (axis : ℕ) (d : List (List ℚ)) : List (List ℚ) :=
  match axis with
  | 0 => d.transpose
  | _ => d

/-- `reject_constant.py`, line 74: the per-row coefficient of variation
`abs(np.std(data, axis)) / np.clip(abs(np.mean(data, axis)), 1e-10, None)`:
the standard deviation divided by the absolute mean floored at the epsilon
1e-10. -/
noncomputable def coefvarRow (l : List ℚ) : ℝ :=
  |Real.sqrt (rvar l)| / ((max |rmean l| (1 / 10000000000) : ℚ) : ℝ)

/-- `reject_constant.py`, line 76: the statistical acceptance test
`coefvar.min() > self.min_coefvar` over the rows along the configured
axis. -/
noncomputable def acceptStat (cfg : RejectConstant) (d : List (List ℚ)) :
    Prop :=
  ∃ v, ((rowsAlong cfg.axis d).map coefvarRow).min? = some v
    ∧ ((cfg.min_coefvar : ℚ) : ℝ) < v

open Classical in
/-- The fetch loop of `RejectConstant.provide` (`reject_constant.py`, lines
69-100), driven by the finite sequence of governed-array data the upstream
provider would return for the repeated identical requests: returns the
accept/reject decision made for each fetched batch (the loop stops at the
first acceptance) and the index of the accepted batch (`none` when the
sequence is exhausted first).  `st` is the stream of draws of the random
source, consumed one draw at a time and only when the statistical test
failed while reject_probability < 1, matching
`random.random() > self.reject_probability` on line 79. -/
noncomputable def provideLoop (cfg : RejectConstant) (st : ℕ → ℚ) :
    List (List (List ℚ)) → ℕ → ℕ → List Bool × Option ℕ
  | [], _, _ => ([], none)
  | d :: rest, k, i =>
    if acceptStat cfg d then ([true], some i)
    else if cfg.reject_probability < 1 then
      if cfg.reject_probability < st k then ([true], some i)
      else
        let r := provideLoop cfg st rest (k + 1) (i + 1)
        (false :: r.1, r.2)
    else
      let r := provideLoop cfg st rest k (i + 1)
      (false :: r.1, r.2)

open Classical in
/-- `RejectConstant.provide` (`reject_constant.py`, lines 55-105): when
reject_probability < 1 the random source is seeded from the request seed,
exactly once and before the fetch loop, discarding whatever state the source
had; then the loop runs.  `streamOf seed` is the stream of draws the source
yields after `random.seed(seed)`; `st0` the stream it would have yielded
from its prior state. -/
noncomputable def provide (cfg : RejectConstant) (streamOf : ℕ → ℕ → ℚ)
    (st0 : ℕ → ℚ) (seed : ℕ) (batches : List (List (List ℚ))) :
    List Bool × Option ℕ :=
  let st := if cfg.reject_probability < 1 then streamOf seed else st0
  provideLoop cfg st batches 0 0

theorem min?_lt_iff (t : ℝ) (l : List ℝ) :
    (∃ v, l.min? = some v ∧ t < v) ↔ (l ≠ [] ∧ ∀ x ∈ l, t < x) := by
  induction l with
  | nil => simp [List.min?]
  | cons x xs ih =>
    simp only [List.min?_cons]
    cases hxs : xs.min? with
    | none =>
      have hx : xs = [] := by
        cases xs with
        | nil => rfl
        | cons a as => simp [List.min?_cons] at hxs
      subst hx
      simp
    | some v =>
      have hne : xs ≠ [] := by
        rintro rfl
        simp [List.min?] at hxs
      simp only [hxs, Option.some.injEq, exists_eq_left'] at ih
      simp only [Option.some.injEq, exists_eq_left']
      simp only [Option.elim]
      rw [lt_min_iff]
      simp [List.forall_mem_cons, ih, hne]

/-- C8: the acceptance test of the fetch loop accepts (before any
probabilistic override) exactly when on every row along the configured axis
the coefficient of variation — standard deviation divided by the absolute
mean floored at the epsilon 1e-10 — strictly exceeds the configured
threshold, equivalently when the minimum across rows does; and the threshold
defaults to 1e-04. -/
theorem rejectConstant_accept_characterization (mc : Option ℚ) (p : ℚ)
    (ax : ℕ) (d : List (List ℚ)) (hne : rowsAlong ax d ≠ []) :
    (acceptStat (mkRejectConstant mc p ax) d ↔
      ∀ row ∈ rowsAlong ax d,
        (((mkRejectConstant mc p ax).min_coefvar : ℚ) : ℝ)
          < |Real.sqrt (rvar row)|
              / ((max |rmean row| (1 / 10000000000) : ℚ) : ℝ))
    ∧ (mkRejectConstant none p ax).min_coefvar = 1 / 10000 := by
  constructor
  · rw [acceptStat, min?_lt_iff]
    constructor
    · intro h row hrow
      exact h.2 _ (List.mem_map_of_mem coefvarRow hrow)
    · intro h
      refine ⟨by simpa using hne, ?_⟩
      intro x hx
      rw [List.mem_map] at hx
      obtain ⟨row, hrow, rfl⟩ := hx
      exact h row hrow
  · rfl

/-- C8 witness: the characterization at the single-row data ((0, 2)) along
the default axis 1, with the default threshold. -/
theorem rejectConstant_accept_characterization_witness :
    (acceptStat (mkRejectConstant none 1 1) [[0, 2]] ↔
      ∀ row ∈ rowsAlong 1 [[0, 2]],
        (((mkRejectConstant none 1 1).min_coefvar : ℚ) : ℝ)
          < |Real.sqrt (rvar row)|
              / ((max |rmean row| (1 / 10000000000) : ℚ) : ℝ))
    ∧ (mkRejectConstant none 1 1).min_coefvar = 1 / 10000 :=
  rejectConstant_accept_characterization none 1 1 [[0, 2]]
    (by simp [rowsAlong])

/-- C9: with reject_probability < 1 the random source is seeded from the
request seed exactly once per request, before the fetch loop; hence the run
is independent of the prior state of the random source, and two runs with
identical request seeds against the same deterministic sequence of upstream
batches return identical accept/reject decision sequences. -/
theorem rejectConstant_seed_determinism (cfg : RejectConstant)
    (streamOf : ℕ → ℕ → ℚ) (st1 st2 : ℕ → ℚ) (seed : ℕ)
    (batches : List (List (List ℚ)))
    (hp : cfg.reject_probability < 1) :
    provide cfg streamOf st1 seed batches
      = provide cfg streamOf st2 seed batches := by
  simp only [provide, if_pos hp]

/-- C9 witness: the determinism statement at a concrete half-probability
configuration, two distinct prior random states and one upstream batch. -/
theorem rejectConstant_seed_determinism_witness :
    provide (mkRejectConstant none (1/2) 1) (fun _ _ => 1/2) (fun _ => 0) 3
        [[[1, 1]]]
      = provide (mkRejectConstant none (1/2) 1) (fun _ _ => 1/2) (fun _ => 1) 3
        [[[1, 1]]] :=
  rejectConstant_seed_determinism (mkRejectConstant none (1/2) 1)
    (fun _ _ => 1/2) (fun _ => 0) (fun _ => 1) 3 [[[1, 1]]]
    (by norm_num [mkRejectConstant])

/-- C7 counterexample: with reject_probability = 0 the first batch is not
always accepted: on a perfectly constant batch the statistical test fails,
and when the seeded random source yields the draw 0 (a value `random.random`
can return) the probabilistic override `random.random() > 0` fails too, so
the batch is rejected and the loop continues. -/
theorem rejectConstant_p0_zero_draw_rejects :
    provide (mkRejectConstant none 0 1) (fun _ _ => 0) (fun _ => 0) 7
        [[[1, 1]]]
      = ([false], none) := by
  have hvar : rvar [1, 1] = 0 := by
    norm_num [rvar, rmean]
  have hcv : coefvarRow [1, 1] = 0 := by
    rw [coefvarRow, hvar]
    push_cast
    simp [Real.sqrt_zero]
  have hna : ¬ acceptStat (mkRejectConstant none 0 1) [[1, 1]] := by
    intro hacc
    simp only [acceptStat] at hacc
    obtain ⟨v, hv1, hv2⟩ := hacc
    rw [show rowsAlong (mkRejectConstant none 0 1).axis [[1, 1]] = [[1, 1]]
        from rfl, List.map_cons, List.map_nil, hcv,
      show List.min? [(0 : ℝ)] = some 0 from rfl] at hv1
    injection hv1 with hv1
    rw [← hv1] at hv2
    rw [show (mkRejectConstant none 0 1).min_coefvar = 1 / 10000 from rfl]
      at hv2
    norm_num at hv2
  have hp : (mkRejectConstant none 0 1).reject_probability < 1 := by
    norm_num [mkRejectConstant]
  simp only [provide, if_pos hp]
  simp only [provideLoop]
  rw [if_neg hna, if_pos hp,
    if_neg (show ¬ (mkRejectConstant none 0 1).reject_probability
      < (fun _ : ℕ => (0 : ℚ)) 0 by norm_num [mkRejectConstant])]

/-- C7 (amended): with reject_probability = 0 the first fetched batch is
accepted (and its index returned) whenever the statistical test passes or
the first draw of the seeded random source is positive; since
`random.random()` yields values in [0, 1), only a draw of exactly 0 can
reject the first batch (see the counterexample). -/
theorem rejectConstant_p0_first_accept (mc : Option ℚ) (ax : ℕ)
    (streamOf : ℕ → ℕ → ℚ) (st0 : ℕ → ℚ) (seed : ℕ)
    (d : List (List ℚ)) (rest : List (List (List ℚ)))
    (hdraw : 0 < streamOf seed 0) :
    provide (mkRejectConstant mc 0 ax) streamOf st0 seed (d :: rest)
      = ([true], some 0) := by
  have hp : (mkRejectConstant mc 0 ax).reject_probability < 1 := by
    norm_num [mkRejectConstant]
  simp only [provide, if_pos hp]
  simp only [provideLoop]
  by_cases h : acceptStat (mkRejectConstant mc 0 ax) d
  · rw [if_pos h]
  · rw [if_neg h, if_pos hp,
      if_pos (show (mkRejectConstant mc 0 ax).reject_probability
        < streamOf seed 0 by simpa [mkRejectConstant] using hdraw)]

/-- C7 witness: the amended statement at a concrete configuration with a
positive first draw. -/
theorem rejectConstant_p0_first_accept_witness :
    provide (mkRejectConstant none 0 1) (fun _ _ => 1/2) (fun _ => 0) 5
        [[[1, 1]]]
      = ([true], some 0) :=
  rejectConstant_p0_first_accept none 1 (fun _ _ => 1/2) (fun _ => 0) 5
    [[1, 1]] [] (by norm_num)

end Gunpowder
